import Mathlib

/-!
Shallow embedding of `app/models.py` from the flask-restless-todo-app
repository: the `User`, `TodoList` and `Todo` models, their validation
setters, the password hashing interface, and the `BaseModel.save`
commit-or-rollback persistence discipline.

Conventions of the embedding:
* Python exceptions become `Except PyError`; a function that cannot raise
  returns its value directly.
* `datetime` values become `Nat` timestamps; "now" is passed explicitly.
* Nullable ORM columns become `Option` fields.  A freshly constructed model
  object has `none` in every column the constructor does not assign
  (SQLAlchemy column defaults are applied at insert/flush time, not at
  construction time).
* The external collaborators (werkzeug password hashing, the SQL store's
  unique constraints) are modelled by explicit Lean functions documented at
  their definitions.
-/

namespace TodoApp

/-- The Python exception kinds raised or caught by `app/models.py`:
`ValueError` (validation), `AttributeError` (reading the write-only
password, string methods on `None`), and SQLAlchemy's `IntegrityError`
(unique-constraint violation at commit). -/
inductive PyError where
  | valueError
  | attributeError
  | integrityError
deriving DecidableEq, Repr

/-- Characters matched by Python's regex class `\s` on `str` patterns:
ASCII whitespace `[ \t\n\r\f\v]`, the separator control characters
`\x1c`-`\x1f`, and the Unicode whitespace code points. -/
def isPySpace (c : Char) : Bool :=
  [0x09, 0x0A, 0x0B, 0x0C, 0x0D, 0x1C, 0x1D, 0x1E, 0x1F, 0x20,
   0x85, 0xA0, 0x1680].contains c.toNat
  || (0x2000 ≤ c.toNat && c.toNat ≤ 0x200A)
  || [0x2028, 0x2029, 0x202F, 0x205F, 0x3000].contains c.toNat

/-- `check_length(attribute, length)` from `models.py`:
`bool(attribute) and len(attribute) <= length`.  On a string argument the
`try` never fails, `bool` is emptiness, `len` is the character count. -/
def check_length (s : String) (len : Nat) : Bool :=
  decide (s ≠ "") && decide (s.length ≤ len)

/-- `cs.all` that no character is Python whitespace (`\S` holds of each). -/
def allNonSpace (cs : List Char) : Bool :=
  cs.all (fun c => !isPySpace c)

/-- Full match of the regex body `\S+` against a character list:
nonempty and every character non-whitespace. -/
def matchNonSpacePlus (cs : List Char) : Bool :=
  !cs.isEmpty && allNonSpace cs

/-- `USERNAME_REGEX.match(s)` for `USERNAME_REGEX = re.compile(r'^\S+$')`,
as a Boolean (`bool(match)`).  Python's `$` matches at the end of the
string or just before a newline at the end of the string, so the pattern
accepts either a full `\S+` string or a `\S+` string followed by exactly
one final newline. -/
def pyMatchUsername (s : String) : Bool :=
  matchNonSpacePlus s.data
  || (s.data.getLast? == some '\x0A' && matchNonSpacePlus s.data.dropLast)

/-- Full match of the regex body `\S+@\S+\.\S+` against a character list.
Regex matching is existential over backtracking splits: the list matches
iff every character is non-whitespace and there are positions `i < j`
holding a literal `'@'` and a literal `'.'` with a nonempty run before
`i`, between `i` and `j`, and after `j`. -/
def emailBodyMatch (cs : List Char) : Bool :=
  allNonSpace cs &&
  (List.range cs.length).any (fun j =>
    cs[j]? == some '.' && decide (j + 2 ≤ cs.length) &&
    (List.range j).any (fun i =>
      cs[i]? == some '@' && decide (1 ≤ i) && decide (i + 2 ≤ j)))

/-- `EMAIL_REGEX.match(s)` for `EMAIL_REGEX = re.compile(r'^\S+@\S+\.\S+$')`,
as a Boolean.  As with the username pattern, Python's `$` also matches just
before one final newline. -/
def pyMatchEmail (s : String) : Bool :=
  emailBodyMatch s.data
  || (s.data.getLast? == some '\x0A' && emailBodyMatch s.data.dropLast)

/-- Model of werkzeug's salt tag: the `method$salt$` material that
`generate_password_hash` prepends to the digest. -/
def hashSaltTag : String := "pbkdf2:sha256:600000$modelsalt$"

/-- Model of werkzeug's `generate_password_hash` for a fixed salt: an
injective, plaintext-distinct encoding of the password.  The real salted
hash is deterministic given the salt and collision-free for practical
purposes; the model keeps exactly those properties (injectivity, output
distinct from and longer than the input). -/
def generate_password_hash (password : String) : String :=
  hashSaltTag ++ password

/-- Model of werkzeug's `check_password_hash`: recompute the hash of the
candidate under the salt recorded in `pwhash` and compare. -/
def check_password_hash (pwhash : String) (password : String) : Bool :=
  decide (generate_password_hash password = pwhash)

/-- The `user` table row / `User` model object.  `username`, `email` and
`password_hash` are nullable columns (`Option`); timestamps are `Nat`. -/
structure User where
  id : Option Nat
  username : Option String
  email : Option String
  password_hash : Option String
  member_since : Option Nat
  last_seen : Option Nat
  is_admin : Bool
deriving DecidableEq, Repr

/-- A `User` object with no column assigned (every nullable column `none`,
admin flag at its column default `False`). -/
def User.blank : User :=
  { id := none, username := none, email := none, password_hash := none,
    member_since := none, last_seen := none, is_admin := false }

/-- The `name` property setter of `User`: raises `ValueError` unless
`check_length(username, 64)` holds and `USERNAME_REGEX` matches; otherwise
assigns `self.username = username`. -/
def User.setName (u : User) (username : String) : Except PyError User :=
  if !check_length username 64 || !pyMatchUsername username then
    Except.error PyError.valueError
  else
    Except.ok { u with username := some username }

/-- The `emailaddress` property setter of `User`: raises `ValueError`
unless `check_length(email, 64)` holds and `EMAIL_REGEX` matches;
otherwise assigns `self.email = email`. -/
def User.setEmail (u : User) (email : String) : Except PyError User :=
  if !check_length email 64 || !pyMatchEmail email then
    Except.error PyError.valueError
  else
    Except.ok { u with email := some email }

/-- The `password` property getter of `User`: raises `AttributeError`
unconditionally (`password is not a readable attribute`). -/
def User.passwordGet (_ : User) : Except PyError String :=
  Except.error PyError.attributeError

/-- The `password` property setter of `User`: raises `ValueError` on a
falsy (empty) password, hashes otherwise, raises `ValueError` when the
hash fails `check_length(hashed_password, 128)`, and stores the hash in
`password_hash` otherwise. -/
def User.setPassword (u : User) (password : String) : Except PyError User :=
  if password = "" then
    Except.error PyError.valueError
  else
    let hashed_password := generate_password_hash password
    if !check_length hashed_password 128 then
      Except.error PyError.valueError
    else
      Except.ok { u with password_hash := some hashed_password }

/-- `User.verify_password`: `check_password_hash(self.password_hash,
password)`.  When `password_hash` is the SQL `NULL` (Python `None`),
werkzeug's string operations on it raise `AttributeError`. -/
def User.verify_password (u : User) (password : String) : Except PyError Bool :=
  match u.password_hash with
  | none => Except.error PyError.attributeError
  | some h => Except.ok (check_password_hash h password)

/-- `db.session.commit()` for an insert of `x` into the rows of one table:
the store raises `IntegrityError` exactly when `conflict x rows` reports a
unique-constraint violation, and appends the row otherwise. -/
def dbCommitInsert (conflict : α → List α → Bool) (x : α) (rows : List α) :
    Except PyError (List α) :=
  if conflict x rows then Except.error PyError.integrityError
  else Except.ok (rows ++ [x])

/-- `BaseModel.save` combined with `BaseModel.__commit`: add the object to
the session and commit; on `IntegrityError` roll back (the store is left
unchanged) and swallow the exception.  The return type carries no error:
no exception reaches the caller. -/
def dbSave (conflict : α → List α → Bool) (x : α) (rows : List α) : List α :=
  match dbCommitInsert conflict x rows with
  | Except.ok rows2 => rows2
  | Except.error _ => rows

/-- The unique constraints of the `user` table: `username` and `email`
both carry `unique=True`.  SQL `UNIQUE` ignores `NULL`s, so a conflict
needs the incoming value to be non-null and equal to an existing row's. -/
def userConflict (u : User) (rows : List User) : Bool :=
  rows.any (fun v =>
    (u.username.isSome && v.username == u.username)
    || (u.email.isSome && v.email == u.email))

/-- `User.save` at the store level: `BaseModel.save` specialised to the
`user` table's unique constraints. -/
def User.save (u : User) (rows : List User) : List User :=
  dbSave userConflict u rows

/-- Python `title or 'untitled'` on an optional string: `None` and the
empty string are falsy and give the default. -/
def pyOrString : Option String → String → String
  | none, d => d
  | some s, d => if s = "" then d else s

/-- The `todolist` table row / `TodoList` model object. -/
structure TodoList where
  id : Option Nat
  title : String
  created_at : Nat
  creator : Option String
deriving DecidableEq, Repr

/-- `TodoList.__init__(title=None, creator=None, created_at=None)`:
`self.title = title or 'untitled'`, `self.creator = creator`,
`self.created_at = created_at or datetime.utcnow()`.  The primary key is
unassigned before insert. -/
def TodoList.init (title : Option String) (creator : Option String)
    (created_at : Option Nat) (now : Nat) : TodoList :=
  { id := none, title := pyOrString title "untitled", creator := creator,
    created_at := created_at.getD now }

/-- The `todo` table row / `Todo` model object.  `is_finished` is a
nullable Boolean column: a freshly constructed object holds `None` until
the insert-time column default `False` applies. -/
structure Todo where
  id : Option Nat
  description : String
  created_at : Nat
  finished_at : Option Nat
  is_finished : Option Bool
  creator : Option String
  todolist_id : Nat
deriving DecidableEq, Repr

/-- Python truthiness of an optional Boolean: `None` is falsy. -/
def pyTruthy : Option Bool → Bool
  | none => false
  | some b => b

/-- `Todo.__init__(description, todolist_id, creator=None,
created_at=None)`: assigns the four listed attributes; `finished_at` and
`is_finished` stay unassigned (`None`). -/
def Todo.init (description : String) (todolist_id : Nat)
    (creator : Option String) (created_at : Option Nat) (now : Nat) : Todo :=
  { id := none, description := description, created_at := created_at.getD now,
    finished_at := none, is_finished := none, creator := creator,
    todolist_id := todolist_id }

/-- The `status` property of `Todo`:
`'finished' if self.is_finished else 'open'` (Python truthiness). -/
def Todo.status (t : Todo) : String :=
  if pyTruthy t.is_finished then "finished" else "open"

/-- The effect of `BaseModel.save` on a `Todo` object's own columns: at
insert the column default `is_finished=False` replaces an unassigned
(`None`) value; every assigned column is persisted as is. -/
def Todo.save (t : Todo) : Todo :=
  { t with is_finished := match t.is_finished with
      | none => some false
      | some b => some b }

/-- `Todo.finished()`: `self.is_finished = True`,
`self.finished_at = datetime.utcnow()`, `self.save()`. -/
def Todo.finished (t : Todo) (now : Nat) : Todo :=
  Todo.save { t with is_finished := some true, finished_at := some now }

/-- `Todo.reopen()`: `self.is_finished = False`,
`self.finished_at = None`, `self.save()`. -/
def Todo.reopen (t : Todo) : Todo :=
  Todo.save { t with is_finished := some false, finished_at := none }

/-- The dynamic relationship `TodoList.todos` resolved against the `todo`
table: the rows whose `todolist_id` points at this list. -/
def TodoList.todosOf (l : TodoList) (rows : List Todo) : List Todo :=
  rows.filter (fun t => some t.todolist_id == l.id)

/-- `TodoList.count_todos()`: `self.todos.order_by(None).count()` — the
number of associated rows, unfiltered. -/
def TodoList.count_todos (l : TodoList) (rows : List Todo) : Nat :=
  (l.todosOf rows).length

/-- `TodoList.count_finished()`:
`self.todos.filter_by(is_finished=True).count()`. -/
def TodoList.count_finished (l : TodoList) (rows : List Todo) : Nat :=
  ((l.todosOf rows).filter (fun t => t.is_finished == some true)).length

/-- `TodoList.count_open()`:
`self.todos.filter_by(is_finished=False).count()`. -/
def TodoList.count_open (l : TodoList) (rows : List Todo) : Nat :=
  ((l.todosOf rows).filter (fun t => t.is_finished == some false)).length

/-- The `finished_at`/`is_finished` coupling invariant of a `Todo`:
the finish timestamp is set exactly when the finished flag is truthy. -/
def todoFlagTimeInv (t : Todo) : Prop :=
  t.finished_at ≠ none ↔ pyTruthy t.is_finished = true

section CountLemmas

/-- Rows whose `is_finished` column is non-null split exactly into the
`filter_by(is_finished=False)` and `filter_by(is_finished=True)` rows. -/
theorem filter_finished_partition (ts : List Todo)
    (h : ∀ t ∈ ts, (t.is_finished).isSome = true) :
    ((ts.filter (fun t => t.is_finished == some false)).length
      + (ts.filter (fun t => t.is_finished == some true)).length) = ts.length := by
  induction ts with
  | nil => simp
  | cons t ts ih =>
    have ht : (t.is_finished).isSome = true := h t (List.mem_cons_self t ts)
    have hts : ∀ x ∈ ts, (x.is_finished).isSome = true :=
      fun x hx => h x (List.mem_cons_of_mem t hx)
    have hrec := ih hts
    cases hb : t.is_finished with
    | none => rw [hb] at ht; simp at ht
    | some b =>
      cases b with
      | false =>
        simp [List.filter_cons, hb]
        omega
      | true =>
        simp [List.filter_cons, hb]
        omega

end CountLemmas

/-- C2: for a `TodoList` whose associated todos are the stored rows
`todosOf`, with `N` their number and `K` the number with `is_finished`
true, `count_todos` returns `N`, `count_finished` returns `K`,
`count_open` returns `N - K`, and open plus finished equals total.
Stored rows carry a non-null `is_finished` (the column default applies at
insert), which is the hypothesis. -/
theorem todolist_counts (l : TodoList) (rows : List Todo)
    (h : ∀ t ∈ l.todosOf rows, (t.is_finished).isSome = true) :
    l.count_todos rows = (l.todosOf rows).length ∧
    l.count_finished rows
      = ((l.todosOf rows).filter (fun t => t.is_finished == some true)).length ∧
    l.count_open rows = l.count_todos rows - l.count_finished rows ∧
    l.count_open rows + l.count_finished rows = l.count_todos rows := by
  have hpart := filter_finished_partition (l.todosOf rows) h
  refine ⟨rfl, rfl, ?_, ?_⟩
  · unfold TodoList.count_open TodoList.count_todos TodoList.count_finished
    omega
  · unfold TodoList.count_open TodoList.count_todos TodoList.count_finished
    omega

/-- A stored todo list (primary key assigned at insert). -/
def listW : TodoList :=
  { id := some 1, title := "groceries", created_at := 0, creator := none }

/-- Stored `todo` rows: two belonging to list 1 (one finished), one
belonging to list 2. -/
def todoRowsW : List Todo :=
  [Todo.save (Todo.init "buy milk" 1 none none 0),
   Todo.finished (Todo.init "buy bread" 1 none none 0) 5,
   Todo.save (Todo.init "elsewhere" 2 none none 0)]

/-- Witness for `todolist_counts` at a concrete list of stored rows:
two associated todos, one finished. -/
theorem todolist_counts_witness :
    (∀ t ∈ listW.todosOf todoRowsW, (t.is_finished).isSome = true) ∧
    (listW.count_todos todoRowsW = (listW.todosOf todoRowsW).length ∧
     listW.count_finished todoRowsW
       = ((listW.todosOf todoRowsW).filter
           (fun t => t.is_finished == some true)).length ∧
     listW.count_open todoRowsW
       = listW.count_todos todoRowsW - listW.count_finished todoRowsW ∧
     listW.count_open todoRowsW + listW.count_finished todoRowsW
       = listW.count_todos todoRowsW) :=
  ⟨by decide, todolist_counts listW todoRowsW (by decide)⟩

/-- C3: the coupling of `finished_at` and `is_finished` holds after
construction (the fresh flag is falsy and the timestamp null), is
established by `finished()` and `reopen()` from any prior state, and is
preserved by `save`. -/
theorem todo_finished_at_invariant :
    (∀ (d : String) (lid : Nat) (c : Option String) (ca : Option Nat) (now : Nat),
        pyTruthy (Todo.init d lid c ca now).is_finished = false ∧
        (Todo.init d lid c ca now).finished_at = none ∧
        todoFlagTimeInv (Todo.init d lid c ca now)) ∧
    (∀ (t : Todo) (now : Nat), todoFlagTimeInv (t.finished now)) ∧
    (∀ t : Todo, todoFlagTimeInv t.reopen) ∧
    (∀ t : Todo, todoFlagTimeInv t → todoFlagTimeInv t.save) := by
  refine ⟨?_, ?_, ?_, ?_⟩
  · intro d lid c ca now
    exact ⟨rfl, rfl, by simp [todoFlagTimeInv, Todo.init, pyTruthy]⟩
  · intro t now
    simp [todoFlagTimeInv, Todo.finished, Todo.save, pyTruthy]
  · intro t
    simp [todoFlagTimeInv, Todo.reopen, Todo.save, pyTruthy]
  · intro t h
    unfold todoFlagTimeInv at h ⊢
    unfold Todo.save
    cases hb : t.is_finished with
    | none =>
      rw [hb] at h
      simp [pyTruthy] at h ⊢
      exact h
    | some b =>
      rw [hb] at h
      simpa [pyTruthy] using h

/-- Witness for `todo_finished_at_invariant`: the invariant holds for a
concrete fresh todo and is carried through its `save`. -/
theorem todo_finished_at_invariant_witness :
    todoFlagTimeInv (Todo.save (Todo.init "buy milk" 1 none none 0)) :=
  todo_finished_at_invariant.2.2.2 (Todo.init "buy milk" 1 none none 0)
    ((todo_finished_at_invariant.1 "buy milk" 1 none none 0).2.2)

/-- C4: `finished()` sets `is_finished` to true and `finished_at` to the
current (non-null) timestamp, a subsequent `reopen()` sets `is_finished`
to false and `finished_at` to null, both transitions apply unconditionally
to an arbitrary prior state (`t` is unconstrained), and `status` reads
`"finished"` exactly when `is_finished` is truthy, `"open"` otherwise. -/
theorem todo_transitions_and_status (t : Todo) (now : Nat) :
    (t.finished now).is_finished = some true ∧
    (t.finished now).finished_at = some now ∧
    (t.finished now).finished_at ≠ none ∧
    ((t.finished now).reopen).is_finished = some false ∧
    ((t.finished now).reopen).finished_at = none ∧
    (t.reopen).is_finished = some false ∧
    (t.reopen).finished_at = none ∧
    (t.status = "finished" ↔ pyTruthy t.is_finished = true) ∧
    (t.status = "open" ↔ pyTruthy t.is_finished = false) := by
  refine ⟨rfl, rfl, by simp [Todo.finished, Todo.save], rfl, rfl, rfl, rfl, ?_, ?_⟩
  · cases hft : pyTruthy t.is_finished <;> simp [Todo.status, hft]
  · cases hft : pyTruthy t.is_finished <;> simp [Todo.status, hft]

/-- C9 counterexample: constructing a `TodoList` with the given (empty)
title `""` does not preserve it — the falsy title is replaced by
`"untitled"`. -/
theorem todolist_empty_title_not_preserved :
    (TodoList.init (some "") none none 0).title = "untitled" ∧
    (TodoList.init (some "") none none 0).title ≠ "" := by
  exact ⟨rfl, by decide⟩

/-- C9 (amended): constructing a `TodoList` with no title, or with the
falsy empty title, yields `"untitled"`; a non-empty given title is
preserved exactly. -/
theorem todolist_title_defaulting (c : Option String) (ca : Option Nat) (now : Nat) :
    (TodoList.init none c ca now).title = "untitled" ∧
    (TodoList.init (some "") c ca now).title = "untitled" ∧
    (∀ s : String, s ≠ "" → (TodoList.init (some s) c ca now).title = s) := by
  refine ⟨rfl, rfl, ?_⟩
  intro s hs
  simp [TodoList.init, pyOrString, hs]

/-- Witness for `todolist_title_defaulting` at a concrete non-empty
title. -/
theorem todolist_title_defaulting_witness :
    ("groceries" : String) ≠ "" ∧
    (TodoList.init (some "groceries") none none 0).title = "groceries" :=
  ⟨by decide, (todolist_title_defaulting none none 0).2.2 "groceries" (by decide)⟩

/-- C1: saving a `User` whose username already occurs in exactly one
stored row raises nothing (visible in `User.save`'s total return type:
the `IntegrityError` is caught and the transaction rolled back), leaves
the store unchanged, and afterwards exactly one row with that username
exists. -/
theorem save_duplicate_username_swallowed (u : User) (rows : List User) (n : String)
    (hu : u.username = some n)
    (h1 : rows.countP (fun v => v.username == some n) = 1) :
    u.save rows = rows ∧
    (u.save rows).countP (fun v => v.username == some n) = 1 := by
  have hex : ∃ v ∈ rows, (fun v : User => v.username == some n) v = true := by
    have hpos : 0 < rows.countP (fun v => v.username == some n) := by omega
    exact List.countP_pos_iff.mp hpos
  have hconf : userConflict u rows = true := by
    rcases hex with ⟨v, hv, hpv⟩
    unfold userConflict
    rw [List.any_eq_true]
    refine ⟨v, hv, ?_⟩
    rw [hu]
    simp only [beq_iff_eq] at hpv
    simp [hpv]
  have hsame : u.save rows = rows := by
    unfold User.save dbSave dbCommitInsert
    rw [hconf]
    simp
  exact ⟨hsame, by rw [hsame]; exact h1⟩

/-- A stored user row named alice. -/
def userAlice : User :=
  { User.blank with
    id := some 1
    username := some "alice"
    email := some "alice@example.com" }

/-- A second, distinct user object reusing the persisted username. -/
def userAlice2 : User :=
  { User.blank with
    username := some "alice"
    email := some "alice2@example.com" }

/-- Witness for `save_duplicate_username_swallowed`: a second alice is
saved into a store holding one alice; the store is unchanged and still
holds exactly one alice row. -/
theorem save_duplicate_username_swallowed_witness :
    userAlice2.username = some "alice" ∧
    [userAlice].countP (fun v => v.username == some "alice") = 1 ∧
    (userAlice2.save [userAlice] = [userAlice] ∧
     (userAlice2.save [userAlice]).countP
       (fun v => v.username == some "alice") = 1) :=
  ⟨rfl, by decide,
   save_duplicate_username_swallowed userAlice2 [userAlice] "alice" rfl (by decide)⟩

/-- C10: verifying any candidate password against a user whose
`password_hash` was never set raises (`AttributeError` from the string
operations of `check_password_hash` on `None`) instead of returning
false. -/
theorem verify_password_unset_raises (u : User) (h : u.password_hash = none)
    (q : String) :
    u.verify_password q = Except.error PyError.attributeError := by
  unfold User.verify_password
  rw [h]

/-- Witness for `verify_password_unset_raises` on a blank user. -/
theorem verify_password_unset_raises_witness :
    User.blank.password_hash = none ∧
    User.blank.verify_password "secret" = Except.error PyError.attributeError :=
  ⟨rfl, verify_password_unset_raises User.blank rfl "secret"⟩

/-- Appending on the left of a fixed string is injective. -/
theorem string_append_cancel_left (s a b : String) : s ++ a = s ++ b ↔ a = b := by
  constructor
  · intro h
    have hd : s.data ++ a.data = s.data ++ b.data := by
      have h2 := congrArg String.data h
      simpa [String.data_append] using h2
    exact String.ext (List.append_cancel_left hd)
  · intro h
    rw [h]

/-- The modelled hash is longer than its input, hence never equal to the
plaintext and never empty. -/
theorem generate_password_hash_ne_plain (p : String) :
    generate_password_hash p ≠ p ∧ generate_password_hash p ≠ "" := by
  have htag : hashSaltTag.length = 31 := by decide
  have hlen : (generate_password_hash p).length
      = hashSaltTag.length + p.length := by
    unfold generate_password_hash
    rw [String.length_append]
  constructor
  · intro h
    have h2 := congrArg String.length h
    rw [hlen] at h2
    omega
  · intro h
    have h2 := congrArg String.length h
    rw [hlen, String.length_empty] at h2
    omega

/-- C5: once a password has been successfully set to the plaintext `p`
(`setPassword` returned the updated user), `verify_password` never
raises — it returns `Except.ok` — and the Boolean it returns is true
exactly when the candidate equals `p`. -/
theorem verify_password_iff_original (u u2 : User) (p : String)
    (hset : u.setPassword p = Except.ok u2) (q : String) :
    u2.verify_password q = Except.ok (decide (q = p)) := by
  unfold User.setPassword at hset
  by_cases hp : p = ""
  · rw [if_pos hp] at hset
    exact absurd hset (by simp)
  · rw [if_neg hp] at hset
    cases hcl : check_length (generate_password_hash p) 128 with
    | false =>
      simp only [hcl, Bool.not_false, if_true] at hset
      exact Except.noConfusion hset
    | true =>
      simp only [hcl, Bool.not_true] at hset
      rw [if_neg (by simp)] at hset
      injection hset with h2
      rw [← h2]
      show Except.ok (decide (generate_password_hash q = generate_password_hash p))
        = Except.ok (decide (q = p))
      have hiff : (generate_password_hash q = generate_password_hash p) ↔ q = p := by
        unfold generate_password_hash
        exact string_append_cancel_left hashSaltTag q p
      rw [decide_eq_decide.mpr hiff]

/-- The user produced by setting the password of a blank user to a
concrete plaintext. -/
def userHashed : User :=
  { User.blank with password_hash := some (generate_password_hash "hunter2") }

set_option maxRecDepth 10000 in
/-- Witness for `verify_password_iff_original`: after setting the
password to a concrete plaintext, verification accepts it and rejects a
different candidate, raising in neither case. -/
theorem verify_password_iff_original_witness :
    User.blank.setPassword "hunter2" = Except.ok userHashed ∧
    userHashed.verify_password "hunter2" = Except.ok true ∧
    userHashed.verify_password "letmein" = Except.ok false := by
  refine ⟨by rfl, ?_, ?_⟩
  · have h := verify_password_iff_original User.blank userHashed "hunter2"
      (by rfl) "hunter2"
    simpa using h
  · have h := verify_password_iff_original User.blank userHashed "hunter2"
      (by rfl) "letmein"
    simpa using h

/-- C6: the password setter rejects the empty (falsy) input with
`ValueError` and stores nothing (the error carries no updated user); on
non-empty input whose computed hash passes the 128-character check it
stores exactly the salted hash — which differs from the plaintext — and
the plaintext cannot be read back since the `password` getter raises
unconditionally; when the computed hash exceeds 128 characters it rejects
with `ValueError`, again leaving `password_hash` unset. -/
theorem password_setter_spec (u : User) :
    (u.setPassword "" = Except.error PyError.valueError) ∧
    (∀ p : String, p ≠ "" → (generate_password_hash p).length ≤ 128 →
      u.setPassword p
          = Except.ok { u with password_hash := some (generate_password_hash p) } ∧
        generate_password_hash p ≠ p) ∧
    (∀ p : String, 128 < (generate_password_hash p).length →
      u.setPassword p = Except.error PyError.valueError) ∧
    (∀ v : User, v.passwordGet = Except.error PyError.attributeError) := by
  refine ⟨rfl, ?_, ?_, fun v => rfl⟩
  · intro p hp hlen
    have hcl : check_length (generate_password_hash p) 128 = true := by
      unfold check_length
      rw [Bool.and_eq_true, decide_eq_true_eq, decide_eq_true_eq]
      exact ⟨(generate_password_hash_ne_plain p).2, hlen⟩
    refine ⟨?_, (generate_password_hash_ne_plain p).1⟩
    unfold User.setPassword
    rw [if_neg hp]
    simp only [hcl, Bool.not_true]
    rw [if_neg (by simp)]
  · intro p hlen
    have hp : p ≠ "" := by
      intro hp0
      rw [hp0] at hlen
      have h31 : (generate_password_hash "").length = 31 := by decide
      omega
    have hcl : check_length (generate_password_hash p) 128 = false := by
      unfold check_length
      have hgt : ¬ ((generate_password_hash p).length ≤ 128) := by omega
      simp [hgt]
    unfold User.setPassword
    rw [if_neg hp]
    simp [hcl]

/-- A 100-character plaintext whose modelled hash exceeds 128
characters. -/
def longPlain : String := String.mk (List.replicate 100 'a')

set_option maxRecDepth 10000 in
/-- Witness for `password_setter_spec`: the empty password errors, a
concrete short password stores its hash, and a concrete 100-character
password trips the 128-character hash check. -/
theorem password_setter_spec_witness :
    User.blank.setPassword "" = Except.error PyError.valueError ∧
    (("hunter2" : String) ≠ "" ∧
      (generate_password_hash "hunter2").length ≤ 128 ∧
      User.blank.setPassword "hunter2" = Except.ok userHashed ∧
      generate_password_hash "hunter2" ≠ "hunter2") ∧
    (128 < (generate_password_hash longPlain).length ∧
      User.blank.setPassword longPlain = Except.error PyError.valueError) := by
  have h := password_setter_spec User.blank
  refine ⟨h.1, ⟨by decide, by decide, ?_, ?_⟩, ⟨by decide, ?_⟩⟩
  · exact (h.2.1 "hunter2" (by decide) (by decide)).1
  · exact (h.2.1 "hunter2" (by decide) (by decide)).2
  · exact h.2.2.1 longPlain (by decide)

/-- A full `\S+` match is exactly a nonempty all-non-whitespace string. -/
theorem matchNonSpacePlus_iff (cs : List Char) :
    matchNonSpacePlus cs = true ↔ cs ≠ [] ∧ ∀ c ∈ cs, isPySpace c = false := by
  unfold matchNonSpacePlus allNonSpace
  rw [Bool.and_eq_true, List.all_eq_true]
  constructor
  · rintro ⟨h1, h2⟩
    exact ⟨by simpa using h1, fun c hc => by simpa using h2 c hc⟩
  · rintro ⟨h1, h2⟩
    exact ⟨by simpa using h1, fun c hc => by simp [h2 c hc]⟩

/-- The dollar-before-final-newline case of a Python `re` match: the body
pattern `f` matched against everything before one trailing newline. -/
theorem trailing_newline_case (f : List Char → Bool) (cs : List Char) :
    (cs.getLast? == some '\x0A' && f cs.dropLast) = true ↔
      ∃ ds : List Char, cs = ds ++ ['\x0A'] ∧ f ds = true := by
  rw [Bool.and_eq_true, beq_iff_eq]
  constructor
  · rintro ⟨h1, h2⟩
    refine ⟨cs.dropLast, ?_, h2⟩
    have hmem : '\x0A' ∈ cs.getLast? := by rw [h1]; rfl
    exact (List.dropLast_append_getLast? '\x0A' hmem).symm
  · rintro ⟨ds, rfl, h2⟩
    rw [List.getLast?_concat, List.dropLast_concat]
    exact ⟨rfl, h2⟩

/-- The username pattern `^\S+$` under Python match semantics: either the
whole string is nonempty non-whitespace, or everything before a single
final newline is. -/
theorem pyMatchUsername_iff (s : String) :
    pyMatchUsername s = true ↔
      ((s.data ≠ [] ∧ ∀ c ∈ s.data, isPySpace c = false) ∨
       (∃ ds : List Char, s.data = ds ++ ['\x0A'] ∧ ds ≠ [] ∧
          ∀ c ∈ ds, isPySpace c = false)) := by
  unfold pyMatchUsername
  rw [Bool.or_eq_true, matchNonSpacePlus_iff,
    trailing_newline_case matchNonSpacePlus s.data]
  constructor
  · rintro (h | ⟨ds, hds, hm⟩)
    · exact Or.inl h
    · exact Or.inr ⟨ds, hds, (matchNonSpacePlus_iff ds).mp hm⟩
  · rintro (h | ⟨ds, hds, hne, hm⟩)
    · exact Or.inl h
    · exact Or.inr ⟨ds, hds, (matchNonSpacePlus_iff ds).mpr ⟨hne, hm⟩⟩

/-- The characterization of usernames the `name` setter accepts: nonempty,
no whitespace anywhere — except that a single trailing newline is
tolerated (an artifact of Python's `$` matching just before a final
newline). -/
def usernameAccepted (s : String) : Prop :=
  (s.data ≠ [] ∧ ∀ c ∈ s.data, isPySpace c = false) ∨
  (∃ ds : List Char, s.data = ds ++ ['\x0A'] ∧ ds ≠ [] ∧
     ∀ c ∈ ds, isPySpace c = false)

/-- An accepted username is not the empty string. -/
theorem usernameAccepted_ne_empty (s : String) (h : usernameAccepted s) :
    s ≠ "" := by
  intro h0
  subst h0
  rcases h with ⟨hne, _⟩ | ⟨ds, hds, _, _⟩
  · exact hne rfl
  · exact absurd hds.symm (List.append_ne_nil_of_right_ne_nil ds (by simp))

/-- A string is a nonempty list of characters exactly when it is not the
empty string. -/
theorem string_ne_empty_iff_data (s : String) : s ≠ "" ↔ s.data ≠ [] := by
  constructor
  · intro h hd
    exact h (String.ext hd)
  · intro h hs
    rw [hs] at h
    exact h rfl

/-- The Boolean guard of the `name` setter agrees with the
`usernameAccepted` characterization plus the length bound. -/
theorem username_cond_iff (s : String) :
    (check_length s 64 && pyMatchUsername s) = true ↔
      (s.length ≤ 64 ∧ usernameAccepted s) := by
  unfold check_length
  rw [Bool.and_eq_true, Bool.and_eq_true, decide_eq_true_eq,
    decide_eq_true_eq, pyMatchUsername_iff]
  constructor
  · rintro ⟨⟨_, hlen⟩, hm⟩
    exact ⟨hlen, hm⟩
  · rintro ⟨hlen, hm⟩
    exact ⟨⟨usernameAccepted_ne_empty s hm, hlen⟩, hm⟩

/-- C7 counterexample: `"ab\n"` contains whitespace (the newline) and so
must raise according to the claim, yet the `name` setter accepts it and
stores the string, newline included. -/
theorem username_whitespace_accepted :
    isPySpace '\x0A' = true ∧
    '\x0A' ∈ "ab\x0A".data ∧
    allNonSpace "ab\x0A".data = false ∧
    User.blank.setName "ab\x0A"
      = Except.ok { User.blank with username := some "ab\x0A" } :=
  ⟨by decide, by decide, by decide, by rfl⟩

/-- C7 (amended): the `name` setter succeeds — and then sets `username`
to exactly the given string — if and only if the string is at most 64
characters and is nonempty whitespace-free except for an optionally
tolerated single trailing newline; in every other case it raises
`ValueError`. -/
theorem username_setter_spec (u : User) (s : String) :
    (u.setName s = Except.ok { u with username := some s } ↔
      (s.length ≤ 64 ∧ usernameAccepted s)) ∧
    (u.setName s = Except.error PyError.valueError ↔
      ¬ (s.length ≤ 64 ∧ usernameAccepted s)) := by
  have hcond := username_cond_iff s
  have hiteq : u.setName s
      = (if (check_length s 64 && pyMatchUsername s) = true then
          Except.ok { u with username := some s }
        else Except.error PyError.valueError) := by
    unfold User.setName
    cases h1 : check_length s 64 <;> cases h2 : pyMatchUsername s <;> simp
  rw [hiteq]
  cases hb : (check_length s 64 && pyMatchUsername s) with
  | true =>
    have hr := hcond.mp hb
    simp [hr]
  | false =>
    have hn : ¬ (s.length ≤ 64 ∧ usernameAccepted s) := by
      intro hr
      rw [hcond.mpr hr] at hb
      exact Bool.noConfusion hb
    simp [hn]

/-- Witness for `username_setter_spec`: a concrete valid username is
accepted and stored, a concrete whitespace-carrying one is rejected. -/
theorem username_setter_spec_witness :
    User.blank.setName "alice"
      = Except.ok { User.blank with username := some "alice" } ∧
    User.blank.setName "bad name" = Except.error PyError.valueError := by
  constructor
  · exact (username_setter_spec User.blank "alice").1.mpr
      (by refine ⟨by decide, Or.inl ⟨by decide, by decide⟩⟩)
  · exact (username_setter_spec User.blank "bad name").2.mpr
      (by
        rintro ⟨-, hacc⟩
        rcases hacc with ⟨-, hall⟩ | ⟨ds, hds, -, hall⟩
        · exact absurd (hall ' ' (by decide)) (by decide)
        · have h2 : "bad name".data.getLast? = some '\x0A' := by
            rw [hds]
            exact List.getLast?_concat _
          exact absurd h2 (by decide))

/-- Whitespace-freedom of a character list, unfolded to membership. -/
theorem allNonSpace_iff (cs : List Char) :
    allNonSpace cs = true ↔ ∀ c ∈ cs, isPySpace c = false := by
  unfold allNonSpace
  rw [List.all_eq_true]
  constructor
  · intro h c hc
    simpa using h c hc
  · intro h c hc
    simp [h c hc]

/-- The decompositions accepted by the email regex body `\S+@\S+\.\S+`:
a nonempty non-whitespace run, a literal `@`, another run, a literal `.`,
and a final run. -/
def emailDecomp (cs : List Char) : Prop :=
  ∃ x y z : List Char, cs = x ++ '@' :: (y ++ '.' :: z) ∧
    x ≠ [] ∧ y ≠ [] ∧ z ≠ [] ∧ ∀ c ∈ cs, isPySpace c = false

/-- The executable index-based matcher for `\S+@\S+\.\S+` agrees with the
existential split semantics of the regex. -/
theorem emailBodyMatch_iff (cs : List Char) :
    emailBodyMatch cs = true ↔ emailDecomp cs := by
  unfold emailBodyMatch
  rw [Bool.and_eq_true]
  constructor
  · rintro ⟨hall, hany⟩
    rw [List.any_eq_true] at hany
    obtain ⟨j, hjr, hj⟩ := hany
    rw [Bool.and_eq_true, Bool.and_eq_true] at hj
    obtain ⟨⟨hjdot, hjlen⟩, hinner⟩ := hj
    rw [beq_iff_eq] at hjdot
    rw [decide_eq_true_eq] at hjlen
    rw [List.any_eq_true] at hinner
    obtain ⟨i, hir, hi⟩ := hinner
    rw [Bool.and_eq_true, Bool.and_eq_true] at hi
    obtain ⟨⟨hiat, h1i⟩, hij⟩ := hi
    rw [beq_iff_eq] at hiat
    rw [decide_eq_true_eq] at h1i
    rw [decide_eq_true_eq] at hij
    have hjlt : j < cs.length := List.mem_range.mp hjr
    have hilt : i < cs.length := by omega
    obtain ⟨hjlt2, hjget⟩ := List.getElem?_eq_some.mp hjdot
    obtain ⟨hilt2, higet⟩ := List.getElem?_eq_some.mp hiat
    refine ⟨cs.take i, (cs.drop (i + 1)).take (j - (i + 1)), cs.drop (j + 1),
      ?_, ?_, ?_, ?_, (allNonSpace_iff cs).mp hall⟩
    · have e3 : cs.drop (i + 1)
          = (cs.drop (i + 1)).take (j - (i + 1)) ++ cs.drop j := by
        conv_lhs => rw [← List.take_append_drop (j - (i + 1)) (cs.drop (i + 1))]
        rw [List.drop_drop]
        have e5 : i + 1 + (j - (i + 1)) = j := by omega
        rw [e5]
      calc cs = cs.take i ++ cs.drop i := (List.take_append_drop i cs).symm
        _ = cs.take i ++ (cs[i] :: cs.drop (i + 1)) := by
              rw [← List.drop_eq_getElem_cons hilt]
        _ = cs.take i ++ ('@' :: cs.drop (i + 1)) := by rw [higet]
        _ = cs.take i ++ ('@' :: ((cs.drop (i + 1)).take (j - (i + 1))
              ++ cs.drop j)) := by rw [← e3]
        _ = cs.take i ++ ('@' :: ((cs.drop (i + 1)).take (j - (i + 1))
              ++ (cs[j] :: cs.drop (j + 1)))) := by
              rw [← List.drop_eq_getElem_cons hjlt]
        _ = cs.take i ++ ('@' :: ((cs.drop (i + 1)).take (j - (i + 1))
              ++ ('.' :: cs.drop (j + 1)))) := by rw [hjget]
    · apply List.length_pos.mp
      rw [List.length_take]
      omega
    · apply List.length_pos.mp
      rw [List.length_take, List.length_drop]
      omega
    · apply List.length_pos.mp
      rw [List.length_drop]
      omega
  · rintro ⟨x, y, z, rfl, hx, hy, hz, hall⟩
    have hxlen : 1 ≤ x.length := List.length_pos.mpr hx
    have hylen : 1 ≤ y.length := List.length_pos.mpr hy
    have hzlen : 1 ≤ z.length := List.length_pos.mpr hz
    have hlen : (x ++ '@' :: (y ++ '.' :: z)).length
        = x.length + 1 + y.length + 1 + z.length := by
      simp [List.length_append]
      omega
    have hmidlen : (x ++ '@' :: y).length = x.length + 1 + y.length := by
      simp [List.length_append]
      omega
    have higet : (x ++ '@' :: (y ++ '.' :: z))[x.length]? = some '@' := by
      rw [List.getElem?_append_right (le_refl x.length)]
      simp
    have hjget : (x ++ '@' :: (y ++ '.' :: z))[x.length + 1 + y.length]?
        = some '.' := by
      have hassoc : x ++ '@' :: (y ++ '.' :: z)
          = (x ++ '@' :: y) ++ '.' :: z := by
        simp
      rw [hassoc]
      rw [List.getElem?_append_right (by omega : (x ++ '@' :: y).length
        ≤ x.length + 1 + y.length)]
      rw [hmidlen]
      simp
    refine ⟨(allNonSpace_iff _).mpr hall, ?_⟩
    rw [List.any_eq_true]
    refine ⟨x.length + 1 + y.length, List.mem_range.mpr (by omega), ?_⟩
    rw [Bool.and_eq_true, Bool.and_eq_true]
    refine ⟨⟨beq_iff_eq.mpr hjget, by rw [decide_eq_true_eq]; omega⟩, ?_⟩
    rw [List.any_eq_true]
    refine ⟨x.length, List.mem_range.mpr (by omega), ?_⟩
    rw [Bool.and_eq_true, Bool.and_eq_true]
    exact ⟨⟨beq_iff_eq.mpr higet, by rw [decide_eq_true_eq]; omega⟩,
      by rw [decide_eq_true_eq]; omega⟩

/-- The characterization of emails the `emailaddress` setter accepts:
the string (or the string before a tolerated single trailing newline)
splits as nonempty non-whitespace, `@`, nonempty non-whitespace, `.`,
nonempty non-whitespace. -/
def emailAccepted (s : String) : Prop :=
  emailDecomp s.data ∨
  ∃ ds : List Char, s.data = ds ++ ['\x0A'] ∧ emailDecomp ds

/-- The email pattern `^\S+@\S+\.\S+$` under Python match semantics. -/
theorem pyMatchEmail_iff (s : String) :
    pyMatchEmail s = true ↔ emailAccepted s := by
  unfold pyMatchEmail emailAccepted
  rw [Bool.or_eq_true, emailBodyMatch_iff,
    trailing_newline_case emailBodyMatch s.data]
  constructor
  · rintro (h | ⟨ds, hds, hm⟩)
    · exact Or.inl h
    · exact Or.inr ⟨ds, hds, (emailBodyMatch_iff ds).mp hm⟩
  · rintro (h | ⟨ds, hds, hm⟩)
    · exact Or.inl h
    · exact Or.inr ⟨ds, hds, (emailBodyMatch_iff ds).mpr hm⟩

/-- A list admitting an email decomposition is nonempty. -/
theorem emailDecomp_ne_nil (cs : List Char) (h : emailDecomp cs) :
    cs ≠ [] := by
  rcases h with ⟨x, y, z, hcs, -, -, -, -⟩
  intro h0
  rw [h0] at hcs
  have h2 := List.append_eq_nil.mp hcs.symm
  exact absurd h2.2 (by simp)

/-- An accepted email is not the empty string. -/
theorem emailAccepted_ne_empty (s : String) (h : emailAccepted s) :
    s ≠ "" := by
  rw [string_ne_empty_iff_data]
  rcases h with h | ⟨ds, hds, -⟩
  · exact emailDecomp_ne_nil _ h
  · intro h0
    rw [h0] at hds
    exact absurd hds.symm (List.append_ne_nil_of_right_ne_nil ds (by simp))

/-- The Boolean guard of the `emailaddress` setter agrees with the
`emailAccepted` characterization plus the length bound. -/
theorem email_cond_iff (s : String) :
    (check_length s 64 && pyMatchEmail s) = true ↔
      (s.length ≤ 64 ∧ emailAccepted s) := by
  unfold check_length
  rw [Bool.and_eq_true, Bool.and_eq_true, decide_eq_true_eq,
    decide_eq_true_eq, pyMatchEmail_iff]
  constructor
  · rintro ⟨⟨-, hlen⟩, hm⟩
    exact ⟨hlen, hm⟩
  · rintro ⟨hlen, hm⟩
    exact ⟨⟨emailAccepted_ne_empty s hm, hlen⟩, hm⟩

set_option maxRecDepth 10000 in
/-- C8 counterexample: `"a@b.c\n"` ends in whitespace, so it does not
match the claimed pattern `nonspace@nonspace.nonspace` (its body matcher
returns false on the full string), yet the `emailaddress` setter accepts
it and stores the string, newline included. -/
theorem email_trailing_newline_accepted :
    isPySpace '\x0A' = true ∧
    '\x0A' ∈ "a@b.c\x0A".data ∧
    emailBodyMatch "a@b.c\x0A".data = false ∧
    String.length "a@b.c\x0A" ≤ 64 ∧
    User.blank.setEmail "a@b.c\x0A"
      = Except.ok { User.blank with email := some "a@b.c\x0A" } :=
  ⟨by decide, by decide, by decide, by decide, by rfl⟩

/-- C8 (amended): the `emailaddress` setter succeeds — and then sets
`email` to exactly the given string — if and only if the string is at
most 64 characters and matches `nonspace@nonspace.nonspace`, with a
single trailing newline additionally tolerated (an artifact of Python's
`$` matching just before a final newline); in every other case it raises
`ValueError`. -/
theorem email_setter_spec (u : User) (s : String) :
    (u.setEmail s = Except.ok { u with email := some s } ↔
      (s.length ≤ 64 ∧ emailAccepted s)) ∧
    (u.setEmail s = Except.error PyError.valueError ↔
      ¬ (s.length ≤ 64 ∧ emailAccepted s)) := by
  have hcond := email_cond_iff s
  have hiteq : u.setEmail s
      = (if (check_length s 64 && pyMatchEmail s) = true then
          Except.ok { u with email := some s }
        else Except.error PyError.valueError) := by
    unfold User.setEmail
    cases h1 : check_length s 64 <;> cases h2 : pyMatchEmail s <;> simp
  rw [hiteq]
  cases hb : (check_length s 64 && pyMatchEmail s) with
  | true =>
    have hr := hcond.mp hb
    simp [hr]
  | false =>
    have hn : ¬ (s.length ≤ 64 ∧ emailAccepted s) := by
      intro hr
      rw [hcond.mpr hr] at hb
      exact Bool.noConfusion hb
    simp [hn]

/-- Witness for `email_setter_spec`: a concrete well-formed email is
accepted and stored, a concrete `@`-free string is rejected. -/
theorem email_setter_spec_witness :
    User.blank.setEmail "a@b.c"
      = Except.ok { User.blank with email := some "a@b.c" } ∧
    User.blank.setEmail "abc" = Except.error PyError.valueError := by
  constructor
  · exact (email_setter_spec User.blank "a@b.c").1.mpr
      ⟨by decide, Or.inl ⟨['a'], ['b'], ['c'], by decide, by decide,
        by decide, by decide, by decide⟩⟩
  · refine (email_setter_spec User.blank "abc").2.mpr ?_
    rintro ⟨-, hacc⟩
    rcases hacc with hdec | ⟨ds, hds, hdec⟩
    · rcases hdec with ⟨x, y, z, hcs, -, -, -, -⟩
      have hat : '@' ∈ "abc".data := by
        rw [hcs]
        simp
      exact absurd hat (by decide)
    · have h2 : "abc".data.getLast? = some '\x0A' := by
        rw [hds]
        exact List.getLast?_concat _
      exact absurd h2 (by decide)

end TodoApp
